import Mathlib

/-!
Verification development for the conversational-voice relay hook
(`frontend/utils/useConversation.js`): a shallow embedding of the
playback sequencer, the conversation channel (WebSocket lifecycle,
inbound frame dispatch), the audio-capture forwarding and the
text-to-speech fallback path, together with theorems about the
behaviours the specification describes.
-/

namespace FlorisAgent

/-- Message roles, as the `role` string field of a chat message. -/
inductive Role
  | user
  | agent
  deriving DecidableEq, Repr

/-- One transcript entry: `{ role, text }`. -/
structure Message where
  role : Role
  text : String
  deriving DecidableEq, Repr

/-- JavaScript truthiness of an optionally-present string value
(`undefined` and the empty string are falsy, every other string truthy),
as used by the guards `if (text)` and `if (base64Audio)` in the source. -/
def jsTruthy : Option String → Bool
  | none => false
  | some s => !(s == "")

/-! ## Playback Sequencer

State of the audio playback machinery of the hook:
`queue` is `audioQueueRef.current` (head = next to play),
`flag` is `isAudioPlayingRef.current`,
`active` records the fragments whose `Audio` object has started playback
and has not yet fired its completion/failure callback (the physical
"currently playing" set, which the flag is supposed to keep at size one),
and `played` is the trace of playback starts in order. -/
structure SeqState where
  queue : List String
  flag : Bool
  active : List String
  played : List String
  deriving DecidableEq, Repr

/-- The empty sequencer: nothing queued, nothing playing. -/
def seqInit : SeqState := ⟨[], false, [], []⟩

/-- The source's `maybePlayNextAudio`: if the playing flag is set, return;
otherwise `shift()` the head of the queue unconditionally and, only when
the shifted value is truthy (`if (next)`), set the flag and begin its
playback.  A falsy (empty-string) fragment is therefore removed and
discarded without starting playback and without touching the flag; a
shift on an empty queue yields `undefined` and nothing happens. -/
def maybePlayNextAudio (s : SeqState) : SeqState :=
  if s.flag then s
  else
    match s.queue with
    | [] => s
    | f :: rest =>
        if f == "" then { s with queue := rest }
        else
          { queue := rest, flag := true, active := s.active ++ [f],
            played := s.played ++ [f] }

/-- The body shared by the source's `audio.onended` callback and the
`audio.play().catch` failure callback: the finishing playback is removed,
the flag is cleared, and `maybePlayNextAudio` is attempted again. -/
def finishPlayback (s : SeqState) : SeqState :=
  match s.active with
  | [] => s
  | _ :: rest => maybePlayNextAudio { s with flag := false, active := rest }

/-- Events driving the sequencer: an `audio` enqueue (push then
`maybePlayNextAudio`), natural completion of the current playback, or
its failure.  Completion and failure run the same handler body. -/
inductive SeqEv
  | enq (f : String)
  | ended
  | failed
  deriving DecidableEq, Repr

/-- One sequencer step per event, exactly as the source wires it. -/
def seqStep : SeqState → SeqEv → SeqState
  | s, .enq f => maybePlayNextAudio { s with queue := s.queue ++ [f] }
  | s, .ended => finishPlayback s
  | s, .failed => finishPlayback s

/-- Run the sequencer from the empty state over a list of events. -/
def seqRun (evs : List SeqEv) : SeqState := evs.foldl seqStep seqInit

/-- The fragments enqueued by an event list, in arrival order. -/
def enqueuedOf (evs : List SeqEv) : List String :=
  evs.filterMap fun e =>
    match e with
    | .enq f => some f
    | _ => none

/-- Sequencer invariant: the playing flag tracks whether a playback is
physically in flight, and at most one playback is in flight. -/
def SeqInv (s : SeqState) : Prop :=
  s.flag = !s.active.isEmpty ∧ s.active.length ≤ 1

lemma maybePlayNextAudio_played_queue (s : SeqState)
    (h : ∀ f ∈ s.queue, f ≠ "") :
    (maybePlayNextAudio s).played ++ (maybePlayNextAudio s).queue =
      s.played ++ s.queue := by
  unfold maybePlayNextAudio
  split
  · rfl
  · cases hq : s.queue with
    | nil => simp [hq]
    | cons f rest =>
        have hf : f ≠ "" := h f (by rw [hq]; exact List.mem_cons_self f rest)
        have hb : (f == "") = false := by simp [hf]
        simp [hq, hb]

lemma maybePlayNextAudio_queue_cases (s : SeqState) :
    (maybePlayNextAudio s).queue = s.queue ∨
      ∃ g rest, s.queue = g :: rest ∧ (maybePlayNextAudio s).queue = rest := by
  unfold maybePlayNextAudio
  by_cases hflag : s.flag = true
  · rw [if_pos hflag]
    exact Or.inl rfl
  · rw [if_neg hflag]
    cases hq : s.queue with
    | nil => exact Or.inl hq
    | cons g rest =>
        by_cases hg : (g == "") = true
        · exact Or.inr ⟨g, rest, rfl, by simp [hg]⟩
        · exact Or.inr ⟨g, rest, rfl, by simp [hg]⟩

lemma maybePlayNextAudio_queue_subset (s : SeqState) :
    ∀ f ∈ (maybePlayNextAudio s).queue, f ∈ s.queue := by
  intro f hf
  rcases maybePlayNextAudio_queue_cases s with h | ⟨g, rest, hq, h⟩
  · rw [h] at hf
    exact hf
  · rw [h] at hf
    rw [hq]
    exact List.mem_cons_of_mem g hf

lemma finishPlayback_played_queue (s : SeqState)
    (h : ∀ f ∈ s.queue, f ≠ "") :
    (finishPlayback s).played ++ (finishPlayback s).queue =
      s.played ++ s.queue := by
  unfold finishPlayback
  cases s.active with
  | nil => rfl
  | cons a rest => exact maybePlayNextAudio_played_queue _ h

lemma finishPlayback_queue_subset (s : SeqState) :
    ∀ f ∈ (finishPlayback s).queue, f ∈ s.queue := by
  unfold finishPlayback
  cases s.active with
  | nil => exact fun f hf => hf
  | cons a rest =>
      exact fun f hf =>
        maybePlayNextAudio_queue_subset ⟨s.queue, false, rest, s.played⟩ f hf

lemma seqStep_played_queue (s : SeqState) (e : SeqEv)
    (hs : ∀ f ∈ s.queue, f ≠ "") (he : ∀ f, e = SeqEv.enq f → f ≠ "") :
    (seqStep s e).played ++ (seqStep s e).queue =
      s.played ++ s.queue ++ enqueuedOf [e] := by
  cases e with
  | enq g =>
      have hg : g ≠ "" := he g rfl
      have hall : ∀ f ∈ s.queue ++ [g], f ≠ "" := by
        intro f hf
        rcases List.mem_append.mp hf with h | h
        · exact hs f h
        · have : f = g := by simpa using h
          exact this ▸ hg
      have h := maybePlayNextAudio_played_queue
        { s with queue := s.queue ++ [g] } hall
      simp only [seqStep, enqueuedOf, List.filterMap] at *
      simp [h]
  | ended => simp [seqStep, finishPlayback_played_queue s hs, enqueuedOf]
  | failed => simp [seqStep, finishPlayback_played_queue s hs, enqueuedOf]

lemma seqStep_queue_nonempty (s : SeqState) (e : SeqEv)
    (hs : ∀ f ∈ s.queue, f ≠ "") (he : ∀ f, e = SeqEv.enq f → f ≠ "") :
    ∀ f ∈ (seqStep s e).queue, f ≠ "" := by
  cases e with
  | enq g =>
      intro f hf
      have hmem := maybePlayNextAudio_queue_subset
        { s with queue := s.queue ++ [g] } f hf
      rcases List.mem_append.mp hmem with h | h
      · exact hs f h
      · have : f = g := by simpa using h
        exact this ▸ he g rfl
  | ended => exact fun f hf => hs f (finishPlayback_queue_subset s f hf)
  | failed => exact fun f hf => hs f (finishPlayback_queue_subset s f hf)

lemma maybePlayNextAudio_inv (s : SeqState) (h : SeqInv s) :
    SeqInv (maybePlayNextAudio s) := by
  obtain ⟨hf, hl⟩ := h
  unfold maybePlayNextAudio
  split
  · exact ⟨hf, hl⟩
  · rename_i hflag
    cases hq : s.queue with
    | nil => exact ⟨hf, hl⟩
    | cons f rest =>
        by_cases hfe : (f == "") = true
        · simp only [hfe, if_true]
          exact ⟨hf, hl⟩
        · simp only [hfe, if_false]
          have hact : s.active = [] := by
            cases ha : s.active with
            | nil => rfl
            | cons a r => rw [ha] at hf; simp at hf; rw [hf] at hflag; simp at hflag
          constructor
          · simp [hact]
          · simp [hact]

lemma finishPlayback_inv (s : SeqState) (h : SeqInv s) :
    SeqInv (finishPlayback s) := by
  obtain ⟨hf, hl⟩ := h
  unfold finishPlayback
  cases ha : s.active with
  | nil => exact ⟨hf, hl⟩
  | cons a rest =>
      apply maybePlayNextAudio_inv
      have hrest : rest = [] := by
        rw [ha] at hl; simpa using hl
      constructor
      · simp [hrest]
      · simp [hrest]

lemma seqStep_inv (s : SeqState) (e : SeqEv) (h : SeqInv s) :
    SeqInv (seqStep s e) := by
  cases e with
  | enq f =>
      apply maybePlayNextAudio_inv
      exact ⟨h.1, h.2⟩
  | ended => exact finishPlayback_inv s h
  | failed => exact finishPlayback_inv s h

lemma enqueuedOf_cons_nonempty (e : SeqEv) (rest : List SeqEv)
    (hevs : ∀ f ∈ enqueuedOf (e :: rest), f ≠ "") :
    (∀ f, e = SeqEv.enq f → f ≠ "") ∧ (∀ f ∈ enqueuedOf rest, f ≠ "") := by
  constructor
  · intro f hef
    apply hevs
    subst hef
    simp [enqueuedOf, List.filterMap_cons]
  · intro f hf
    apply hevs
    cases e with
    | enq g =>
        simp only [enqueuedOf, List.filterMap_cons] at hf ⊢
        exact List.mem_cons_of_mem g hf
    | ended => simpa [enqueuedOf, List.filterMap_cons] using hf
    | failed => simpa [enqueuedOf, List.filterMap_cons] using hf

lemma seqFoldl_played_queue (evs : List SeqEv) (s : SeqState)
    (hs : ∀ f ∈ s.queue, f ≠ "") (hevs : ∀ f ∈ enqueuedOf evs, f ≠ "") :
    (List.foldl seqStep s evs).played ++ (List.foldl seqStep s evs).queue =
      s.played ++ s.queue ++ enqueuedOf evs := by
  induction evs generalizing s with
  | nil => simp [enqueuedOf]
  | cons e rest ih =>
      obtain ⟨he, hrest⟩ := enqueuedOf_cons_nonempty e rest hevs
      have h1 := seqStep_played_queue s e hs he
      have h2 := ih (seqStep s e) (seqStep_queue_nonempty s e hs he) hrest
      simp only [List.foldl_cons]
      rw [h2, h1]
      simp [enqueuedOf]
      cases e <;> simp

lemma seqFoldl_queue_nonempty (evs : List SeqEv) (s : SeqState)
    (hs : ∀ f ∈ s.queue, f ≠ "") (hevs : ∀ f ∈ enqueuedOf evs, f ≠ "") :
    ∀ f ∈ (List.foldl seqStep s evs).queue, f ≠ "" := by
  induction evs generalizing s with
  | nil => exact hs
  | cons e rest ih =>
      obtain ⟨he, hrest⟩ := enqueuedOf_cons_nonempty e rest hevs
      simpa only [List.foldl_cons] using
        ih (seqStep s e) (seqStep_queue_nonempty s e hs he) hrest

lemma seqFoldl_inv (evs : List SeqEv) (s : SeqState) (h : SeqInv s) :
    SeqInv (List.foldl seqStep s evs) := by
  induction evs generalizing s with
  | nil => exact h
  | cons e rest ih => exact ih (seqStep s e) (seqStep_inv s e h)

lemma seqRun_played_queue (evs : List SeqEv)
    (hevs : ∀ f ∈ enqueuedOf evs, f ≠ "") :
    (seqRun evs).played ++ (seqRun evs).queue = enqueuedOf evs := by
  have h := seqFoldl_played_queue evs seqInit (by simp [seqInit]) hevs
  simpa [seqRun, seqInit] using h

lemma seqRun_queue_nonempty (evs : List SeqEv)
    (hevs : ∀ f ∈ enqueuedOf evs, f ≠ "") :
    ∀ f ∈ (seqRun evs).queue, f ≠ "" :=
  seqFoldl_queue_nonempty evs seqInit (by simp [seqInit]) hevs

lemma seqRun_inv (evs : List SeqEv) : SeqInv (seqRun evs) := by
  apply seqFoldl_inv
  constructor <;> simp [seqInit]

/-- After a playback failure (or completion) with a truthy fragment at
the head of the queue, that head begins playback immediately. -/
lemma finishPlayback_advances (s : SeqState) (f : String) (rest : List String)
    (hq : s.queue = f :: rest) (hf : f ≠ "") (ha : s.active ≠ []) :
    (finishPlayback s).flag = true ∧
      (finishPlayback s).played = s.played ++ [f] := by
  unfold finishPlayback
  cases hac : s.active with
  | nil => exact absurd hac ha
  | cons a r =>
      unfold maybePlayNextAudio
      have hb : (f == "") = false := by simp [hf]
      simp [hq, hb]

/-! ## Conversation session

The hook's mutable state: the React state (`messages`, `isRecording`,
`isConnected`), the refs (`websocketRef`, the sequencer refs), the
voice-stream capture (`streaming`), plus bookkeeping the embedding needs:
the set of WebSocket objects ever constructed (they outlive the ref —
handlers are attached to the object, not the ref), the outbound send
trace per socket, whether a `startConversation` call is suspended on its
signed-URL fetch, and the trace of `/api/tts` requests issued. -/

/-- WebSocket ready states used by the source (`CONNECTING`, `OPEN`,
`CLOSED`). -/
inductive ReadyState
  | connecting
  | opened
  | closed
  deriving DecidableEq, Repr

/-- Outbound socket messages the hook sends. -/
inductive OutMsg
  | initiation
  | pong (eventId : Nat)
  | userAudioChunk (data : String)
  deriving DecidableEq, Repr

/-- Parsed inbound frames, following the wire shapes the handler reads:
`ping` with its `ping_event.event_id`, `user_transcript` /
`agent_response` / `audio` whose nested payload string may be absent
(optional chaining yields `undefined`), and any other `type`. -/
inductive InMsg
  | ping (eventId : Nat)
  | userTranscript (t : Option String)
  | agentResponse (t : Option String)
  | audio (b : Option String)
  | other
  deriving DecidableEq, Repr

/-- Whole-session state. -/
structure Session where
  messages : List Message
  isRecording : Bool
  isConnected : Bool
  wsRef : Option Nat
  sockets : List (Nat × ReadyState)
  sent : List (Nat × OutMsg)
  seq : SeqState
  streaming : Bool
  pendingFetch : Bool
  ttsRequests : List String
  deriving DecidableEq, Repr

/-- The initial (idle) session state of a freshly mounted hook. -/
def sessionInit : Session :=
  { messages := [], isRecording := false, isConnected := false,
    wsRef := none, sockets := [], sent := [], seq := seqInit,
    streaming := false, pendingFetch := false, ttsRequests := [] }

/-- Ready state of socket `i`, `none` if no such socket was created. -/
def sockState (s : Session) (i : Nat) : Option ReadyState :=
  s.sockets.lookup i

/-- Set the ready state of socket `i`. -/
def setSockState (s : Session) (i : Nat) (st : ReadyState) : Session :=
  { s with sockets := s.sockets.map fun p => if p.1 = i then (p.1, st) else p }

/-- Identifier a `new WebSocket(...)` construction receives. -/
def freshId (s : Session) : Nat := s.sockets.length

/-- The `onAudioChunked` callback of `useVoiceStream`: read
`websocketRef.current`; if it is absent or not `OPEN`, return (the frame
is dropped); otherwise send a `user_audio_chunk` message on it. -/
def onAudioChunked (d : String) (s : Session) : Session :=
  match s.wsRef with
  | none => s
  | some i =>
      if sockState s i = some ReadyState.opened then
        { s with sent := s.sent ++ [(i, OutMsg.userAudioChunk d)] }
      else s

/-- The synchronous prefix of `startConversation`, up to the `await` of
the signed-URL fetch: if already connected, return; otherwise issue the
`GET /api/signed-url` request and suspend. -/
def startConversationBegin (s : Session) : Session :=
  if s.isConnected then s else { s with pendingFetch := true }

/-- The `try` body of `startConversation` from the point its awaited
fetch resolves: a rejected fetch propagates; a response whose
`signedUrl` is falsy — absent or the empty string, per
`if (!signedUrl)` — throws `Signed URL not provided`; otherwise a
WebSocket is constructed (state `CONNECTING`) and stored in
`websocketRef`. -/
def startTryBody (r : Except Unit (Option String)) (s : Session) :
    Except Unit Session :=
  match r with
  | .error e => .error e
  | .ok u =>
      if jsTruthy u then
        .ok { s with sockets := s.sockets ++ [(freshId s, ReadyState.connecting)],
                     wsRef := some (freshId s) }
      else .error ()

/-- Resumption of a suspended `startConversation` when its signed-URL
fetch settles.  The surrounding `catch` absorbs every failure with a
`console.error` only — no state change and nothing rethrown to the UI. -/
def startConversationResume (r : Except Unit (Option String)) (s : Session) :
    Session :=
  if s.pendingFetch then
    let s' := { s with pendingFetch := false }
    match startTryBody r s' with
    | .ok t => t
    | .error _ => s'
  else s

/-- The `ws.onopen` handler of socket `i` (fires when a `CONNECTING`
socket completes): set `isConnected`, send the initiation message, start
microphone streaming, set `isRecording`.  It acts on the socket object
it was attached to, whether or not `websocketRef` still points at it. -/
def wsOnOpen (i : Nat) (s : Session) : Session :=
  if sockState s i = some ReadyState.connecting then
    let s := setSockState s i ReadyState.opened
    { s with isConnected := true,
             sent := s.sent ++ [(i, OutMsg.initiation)],
             streaming := true, isRecording := true }
  else s

/-- Dispatch of one successfully parsed inbound frame, following the
source's `type` checks: `ping` replies with a `pong` carrying the same
`event_id` and returns; transcripts and responses append a message when
the payload string is truthy; `audio` pushes a truthy payload onto the
queue and calls `maybePlayNextAudio`; anything else is ignored. -/
def handleMessage (i : Nat) (m : InMsg) (s : Session) : Session :=
  match m with
  | .ping eid => { s with sent := s.sent ++ [(i, OutMsg.pong eid)] }
  | .userTranscript t =>
      if jsTruthy t then
        { s with messages := s.messages ++ [⟨Role.user, t.getD ""⟩] }
      else s
  | .agentResponse t =>
      if jsTruthy t then
        { s with messages := s.messages ++ [⟨Role.agent, t.getD ""⟩] }
      else s
  | .audio b =>
      if jsTruthy b then
        let q := { s.seq with queue := s.seq.queue ++ [b.getD ""] }
        { s with seq := maybePlayNextAudio q }
      else s
  | .other => s

/-- The `ws.onmessage` handler body: `JSON.parse(event.data)` first, then
dispatch.  A frame that fails to parse (`none`) makes `JSON.parse` throw
before any state is touched, so the handler aborts with an exception. -/
def onMessageBody (i : Nat) (raw : Option InMsg) (s : Session) :
    Except Unit Session :=
  match raw with
  | none => .error ()
  | some m => .ok (handleMessage i m s)

/-- One inbound frame as processed by the host event loop: an uncaught
exception in the handler is reported by the browser and leaves the
socket and all hook state untouched — it does not close the channel. -/
def wsOnMessage (i : Nat) (raw : Option InMsg) (s : Session) : Session :=
  match onMessageBody i raw s with
  | .ok t => t
  | .error _ => s

/-- Process a list of inbound frames on socket `i` in delivery order. -/
def runFrames (i : Nat) (s : Session) (frames : List (Option InMsg)) : Session :=
  frames.foldl (fun st raw => wsOnMessage i raw st) s

/-- The `ws.onclose` handler of socket `i` (fires once when a live socket
closes): clear `websocketRef`, clear the connection and recording state,
stop microphone streaming. -/
def wsOnClose (i : Nat) (s : Session) : Session :=
  if sockState s i = some ReadyState.connecting ∨
      sockState s i = some ReadyState.opened then
    let s := setSockState s i ReadyState.closed
    { s with wsRef := none, isConnected := false, isRecording := false,
             streaming := false }
  else s

/-- The source's `stopConversation`: close the referenced socket only
when its ready state is `OPEN`, null the ref, clear the connection and
recording flags, and stop microphone streaming — all synchronously. -/
def stopConversation (s : Session) : Session :=
  let s1 :=
    match s.wsRef with
    | some i =>
        if sockState s i = some ReadyState.opened then
          setSockState s i ReadyState.closed
        else s
    | none => s
  { s1 with wsRef := none, isConnected := false, isRecording := false,
            streaming := false }

/-- A session with no live resources: no socket reference, not connected,
not recording, no microphone stream. -/
def IsIdle (s : Session) : Prop :=
  s.wsRef = none ∧ s.isConnected = false ∧ s.isRecording = false ∧
    s.streaming = false

/-! ## Text fallback path (`sendTextMessage`) -/

/-- Body of a `POST /api/tts` response: the `audio` and `format` fields,
each possibly absent. -/
structure TtsResp where
  audio : Option String
  format : Option String
  deriving DecidableEq, Repr

/-- The synchronous prefix of `sendTextMessage` past its empty-text
guard, up to the `await` of the TTS call: append the user message to the
chat, then issue the `POST /api/tts` request. -/
def sendTextSyncCore (text : String) (s : Session) : Session :=
  { s with messages := s.messages ++ [⟨Role.user, text⟩],
           ttsRequests := s.ttsRequests ++ [text] }

/-- Resumption of `sendTextMessage` when the TTS call settles: a
response with a truthy `audio` field is enqueued for playback and a
`[audio]` agent stub appended; a response without one does nothing
further; a rejected call is caught and a generic failure notice
appended. -/
def sendTextResume (r : Except Unit TtsResp) (s : Session) : Session :=
  match r with
  | .ok data =>
      if jsTruthy data.audio then
        let q := { s.seq with queue := s.seq.queue ++ [data.audio.getD ""] }
        let s := { s with seq := maybePlayNextAudio q }
        { s with messages := s.messages ++ [⟨Role.agent, "[audio]"⟩] }
      else s
  | .error _ =>
      { s with messages := s.messages ++
          [⟨Role.agent, "Sorry, I could not process that."⟩] }

/-- The whole of `sendTextMessage` for a given eventual TTS outcome `r`:
falsy text returns before any effect; otherwise the synchronous prefix
runs and the resumption is applied when the response arrives. -/
def sendTextMessage (text : String) (r : Except Unit TtsResp) (s : Session) :
    Session :=
  if text = "" then s else sendTextResume r (sendTextSyncCore text s)

/-! ## Environment event runner (used for the cancellation analysis) -/

/-- Events the environment can deliver to a session: the user's calls,
the settling of a pending signed-URL fetch, socket lifecycle and message
events, captured microphone frames, and playback completion/failure. -/
inductive Ev
  | startBegin
  | fetchResolve (r : Except Unit (Option String))
  | sockOpen (i : Nat)
  | sockMsg (i : Nat) (raw : Option InMsg)
  | sockClose (i : Nat)
  | stopCall
  | audioChunk (d : String)
  | playEnded
  | playFailed

/-- One environment step.  Socket open/message/close events only fire
for a socket in the appropriate live state. -/
def step (s : Session) : Ev → Session
  | .startBegin => startConversationBegin s
  | .fetchResolve r => startConversationResume r s
  | .sockOpen i => wsOnOpen i s
  | .sockMsg i raw =>
      if sockState s i = some ReadyState.opened then wsOnMessage i raw s else s
  | .sockClose i => wsOnClose i s
  | .stopCall => stopConversation s
  | .audioChunk d => onAudioChunked d s
  | .playEnded => { s with seq := finishPlayback s.seq }
  | .playFailed => { s with seq := finishPlayback s.seq }

/-- Run a list of environment events from a session state. -/
def runEv (s : Session) (evs : List Ev) : Session := evs.foldl step s

/-- A session in the `Active` state: one opened socket referenced by the
hook, connected, recording, streaming, nothing queued or played yet. -/
def sessionActive : Session :=
  { sessionInit with
      wsRef := some 0
      sockets := [(0, ReadyState.opened)]
      isConnected := true
      isRecording := true
      streaming := true }

/-- Looking up a key that is present, after rewriting that key's value,
yields the new value. -/
lemma lookup_map_set (l : List (Nat × ReadyState)) (i : Nat) (st : ReadyState)
    (h : (l.lookup i).isSome) :
    (l.map fun p => if p.1 = i then (p.1, st) else p).lookup i = some st := by
  induction l with
  | nil => simp [List.lookup] at h
  | cons p rest ih =>
      obtain ⟨k, v⟩ := p
      by_cases hp : k = i
      · subst hp
        have hfst : (if (k, v).1 = k then ((k, v).1, st) else (k, v)) = (k, st) := by
          simp
        simp only [List.map_cons, hfst]
        simp [List.lookup]
      · simp only [List.map_cons]
        rw [if_neg hp]
        have hik : i ≠ k := fun h => hp h.symm
        have hb : (i == k) = false := by simp [hik]
        simp only [List.lookup, hb] at h ⊢
        exact ih h

/-! ## Claim theorems -/

/-- C1 counterexample: a falsy (empty) fragment refutes the claim as
stated.  Enqueueing `""` alone, `maybePlayNextAudio` shifts it and the
`if (next)` truthiness check discards it: playback never begins for it
and it is gone from the queue, so the play-begin trace plus the pending
queue is not the enqueue sequence.  Worse, on the run [enq "a", enq "",
enq "b", ended] the completion of "a" shifts and discards `""` without
starting a playback, leaving "b" queued with the flag off and no
playback in flight — nothing pending will ever advance it, so the queue
stalls even though no playback failed. -/
theorem falsy_fragment_counterexample :
    (seqRun [SeqEv.enq ""]).played ++ (seqRun [SeqEv.enq ""]).queue ≠
      enqueuedOf [SeqEv.enq ""]
    ∧ (seqRun [SeqEv.enq ""]).played = []
    ∧ (seqRun [SeqEv.enq ""]).queue = []
    ∧ (seqRun [SeqEv.enq "a", SeqEv.enq "", SeqEv.enq "b",
        SeqEv.ended]).queue = ["b"]
    ∧ (seqRun [SeqEv.enq "a", SeqEv.enq "", SeqEv.enq "b",
        SeqEv.ended]).flag = false
    ∧ (seqRun [SeqEv.enq "a", SeqEv.enq "", SeqEv.enq "b",
        SeqEv.ended]).active = []
    ∧ (seqRun [SeqEv.enq "a", SeqEv.enq "", SeqEv.enq "b",
        SeqEv.ended]).played = ["a"] := by
  refine ⟨by decide, rfl, rfl, rfl, rfl, rfl, rfl⟩

/-- C1 amended: over any interleaving of enqueues of non-empty (truthy)
fragments with playback completions and failures, the fragments whose
playback has begun followed by the pending queue are exactly the
enqueued fragments in FIFO order (so playback begins in enqueue order
and nothing is reordered or lost); at most one fragment is physically
playing at any instant, and the playing flag tracks that; and when the
current playback fails with the queue non-empty, the handler clears the
flag and immediately starts the head of the queue — a failed fragment
never stalls the queue.  A falsy (empty) fragment, by contrast, is
shifted and discarded without playing (see the counterexample); both
enqueue sites of the hook guard with truthiness, so only non-empty
fragments ever reach this queue. -/
theorem seq_fifo_single_playback_no_stall (evs : List SeqEv)
    (hevs : ∀ f ∈ enqueuedOf evs, f ≠ "") :
    (seqRun evs).played ++ (seqRun evs).queue = enqueuedOf evs
    ∧ (seqRun evs).active.length ≤ 1
    ∧ (seqRun evs).flag = !(seqRun evs).active.isEmpty
    ∧ (∀ f rest, (seqRun evs).queue = f :: rest → (seqRun evs).active ≠ [] →
        (seqStep (seqRun evs) SeqEv.failed).flag = true ∧
          (seqStep (seqRun evs) SeqEv.failed).played =
            (seqRun evs).played ++ [f]) := by
  refine ⟨seqRun_played_queue evs hevs, (seqRun_inv evs).2, (seqRun_inv evs).1,
    fun f rest hq ha => ?_⟩
  have hf : f ≠ "" := seqRun_queue_nonempty evs hevs f
    (by rw [hq]; exact List.mem_cons_self f rest)
  simpa [seqStep] using finishPlayback_advances (seqRun evs) f rest hq hf ha

/-- Witness for C1's amended theorem at the concrete run
[enqueue "a", enqueue "b"]: "a" is playing, "b" is queued, and on
playback failure "b" starts at once. -/
theorem seq_fifo_single_playback_no_stall_witness :
    (seqStep (seqRun [SeqEv.enq "a", SeqEv.enq "b"]) SeqEv.failed).played =
      (seqRun [SeqEv.enq "a", SeqEv.enq "b"]).played ++ ["b"] := by
  have hevs : ∀ f ∈ enqueuedOf [SeqEv.enq "a", SeqEv.enq "b"], f ≠ "" := by
    intro f hf
    simp only [enqueuedOf, List.filterMap_cons, List.filterMap_nil] at hf
    rcases List.mem_cons.mp hf with h | h
    · subst h; decide
    · rcases List.mem_cons.mp h with h2 | h2
      · subst h2; decide
      · simp at h2
  exact ((seq_fifo_single_playback_no_stall [SeqEv.enq "a", SeqEv.enq "b"]
    hevs).2.2.2 "b" [] rfl (by decide)).2

/-- C2: an inbound frame whose payload fails to parse as JSON makes
`JSON.parse` throw before the handler touches any state; the browser
reports the uncaught exception without closing the socket, so the frame
is dropped with the session state — connection flag included — entirely
unchanged, and deleting the malformed frame from any delivery sequence
does not change what the valid frames around it produce. -/
theorem malformed_frame_dropped (i : Nat) (s : Session)
    (pre post : List (Option InMsg)) :
    wsOnMessage i none s = s
    ∧ runFrames i s (pre ++ none :: post) = runFrames i s (pre ++ post) := by
  constructor
  · rfl
  · simp [runFrames, List.foldl_append, wsOnMessage, onMessageBody]

/-- C3 counterexample: start a conversation, let the signed-URL fetch
resolve (socket 0 now `CONNECTING`), then call `stopConversation`.  The
stop call does not close the connecting socket (its `readyState` is not
`OPEN`), and when the socket subsequently opens, microphone capture is
started and an initiation frame is sent — side effects after stop, with
the socket never having been released at the stop call. -/
theorem stop_midflight_counterexample :
    sockState (runEv sessionInit [Ev.startBegin,
        Ev.fetchResolve (Except.ok (some "wss://agent")), Ev.stopCall]) 0 =
      some ReadyState.connecting
    ∧ (runEv sessionInit [Ev.startBegin,
        Ev.fetchResolve (Except.ok (some "wss://agent")), Ev.stopCall,
        Ev.sockOpen 0]).streaming = true
    ∧ (runEv sessionInit [Ev.startBegin,
        Ev.fetchResolve (Except.ok (some "wss://agent")), Ev.stopCall,
        Ev.sockOpen 0]).sent = [(0, OutMsg.initiation)] :=
  ⟨rfl, rfl, rfl⟩

/-- C3 amended: `stopConversation` synchronously stops microphone
streaming, nulls the socket reference and clears the connection and
recording flags, so captured frames delivered afterwards are dropped;
it closes the referenced socket only when that socket is `OPEN`; and it
does not cancel an in-flight `startConversation` — a pending signed-URL
fetch stays pending, and a `CONNECTING` socket is left unclosed, so the
in-flight operation can later open a socket and start capture (as the
counterexample shows). -/
theorem stop_sync_release_amended (s : Session) :
    (stopConversation s).streaming = false
    ∧ (stopConversation s).wsRef = none
    ∧ (stopConversation s).isConnected = false
    ∧ (stopConversation s).isRecording = false
    ∧ (∀ d, onAudioChunked d (stopConversation s) = stopConversation s)
    ∧ (stopConversation s).pendingFetch = s.pendingFetch
    ∧ (∀ i, s.wsRef = some i → sockState s i = some ReadyState.opened →
        sockState (stopConversation s) i = some ReadyState.closed) := by
  refine ⟨rfl, rfl, rfl, rfl, fun d => rfl, ?_, ?_⟩
  · unfold stopConversation
    cases s.wsRef with
    | none => rfl
    | some i =>
        by_cases h : sockState s i = some ReadyState.opened <;>
          simp [h, setSockState]
  · intro i href hopen
    have h1 : (stopConversation s).sockets =
        (setSockState s i ReadyState.closed).sockets := by
      simp [stopConversation, href, hopen]
    have h2 : sockState (stopConversation s) i =
        sockState (setSockState s i ReadyState.closed) i := by
      unfold sockState
      rw [h1]
    rw [h2]
    unfold sockState setSockState
    exact lookup_map_set s.sockets i ReadyState.closed (by
      unfold sockState at hopen
      simp [hopen])

/-- Witness for C3's amended theorem at the active session: stop releases
the microphone, drops a subsequent captured frame, and closes the open
socket. -/
theorem stop_sync_release_amended_witness :
    (stopConversation sessionActive).streaming = false
    ∧ onAudioChunked "abc" (stopConversation sessionActive) =
        stopConversation sessionActive
    ∧ sockState (stopConversation sessionActive) 0 = some ReadyState.closed :=
  ⟨(stop_sync_release_amended sessionActive).1,
   (stop_sync_release_amended sessionActive).2.2.2.2.1 "abc",
   (stop_sync_release_amended sessionActive).2.2.2.2.2.2 0 rfl rfl⟩

/-- C4 counterexample: when `startConversation`'s signed-URL fetch
rejects, the catch block only logs to the console — the Message log
gains no entry (here it stays empty) and the session state is simply
reset, contradicting the claim that the error surfaces as an entry
appended to the Message log. -/
theorem start_fetch_failure_counterexample :
    (startConversationResume (Except.error ())
        (startConversationBegin sessionInit)).messages = sessionInit.messages
    ∧ startConversationResume (Except.error ())
        (startConversationBegin sessionInit) = sessionInit :=
  ⟨rfl, rfl⟩

/-- C4 amended: every failure of `startConversation`'s signed-URL fetch
(a rejected request, or a response without a `signedUrl`) is caught at
the boundary and never thrown to the UI layer, but it surfaces only as a
console log: no Message-log entry is appended and the session state is
silently reset to its un-suspended form. -/
theorem start_failure_caught_silent (s : Session)
    (r : Except Unit (Option String))
    (hr : r = Except.error () ∨ r = Except.ok none) :
    startConversationResume r s =
      (if s.pendingFetch then { s with pendingFetch := false } else s)
    ∧ (startConversationResume r s).messages = s.messages := by
  have hstate : startConversationResume r s =
      (if s.pendingFetch then { s with pendingFetch := false } else s) := by
    rcases hr with h | h <;> subst h <;>
      simp [startConversationResume, startTryBody, jsTruthy]
  refine ⟨hstate, ?_⟩
  rw [hstate]
  by_cases hp : s.pendingFetch <;> simp [hp]

/-- Witness for C4's amended theorem: a rejected fetch during a start
from the idle session leaves the message log unchanged. -/
theorem start_failure_caught_silent_witness :
    (startConversationResume (Except.error ())
        (startConversationBegin sessionInit)).messages =
      (startConversationBegin sessionInit).messages :=
  (start_failure_caught_silent (startConversationBegin sessionInit)
    (Except.error ()) (Or.inl rfl)).2

/-- C5: for non-empty text, `sendTextMessage` appends the user message
synchronously before awaiting the TTS call; when the call succeeds with
the non-empty `audio` payload the response contract promises, exactly
one fragment is enqueued — the returned payload is appended to the
queue and the sequencer poked, the enqueue operation of §4.4 — and an
agent `[audio]` stub is appended; when the call fails, a generic
failure notice is appended and the sequencer is untouched.  The
begun-plus-pending accounting for the enqueued fragment is stated for
queues of truthy fragments, the only queues the hook's truthiness-
guarded enqueue sites ever build. -/
theorem sendTextMessage_contract (s : Session) (text : String)
    (data : TtsResp) (a : String) (htext : text ≠ "") :
    (sendTextSyncCore text s).messages = s.messages ++ [⟨Role.user, text⟩]
    ∧ (∀ r, sendTextMessage text r s = sendTextResume r (sendTextSyncCore text s))
    ∧ (data.audio = some a → a ≠ "" →
        (sendTextMessage text (Except.ok data) s).messages =
          s.messages ++ [⟨Role.user, text⟩, ⟨Role.agent, "[audio]"⟩]
        ∧ (sendTextMessage text (Except.ok data) s).seq =
            maybePlayNextAudio { s.seq with queue := s.seq.queue ++ [a] }
        ∧ ((∀ f ∈ s.seq.queue, f ≠ "") →
            (sendTextMessage text (Except.ok data) s).seq.played ++
              (sendTextMessage text (Except.ok data) s).seq.queue =
            s.seq.played ++ s.seq.queue ++ [a]))
    ∧ ((sendTextMessage text (Except.error ())  s).messages =
          s.messages ++ [⟨Role.user, text⟩,
            ⟨Role.agent, "Sorry, I could not process that."⟩]
        ∧ (sendTextMessage text (Except.error ()) s).seq = s.seq) := by
  refine ⟨rfl, fun r => by simp [sendTextMessage, htext], ?_, ?_⟩
  · intro ha hne
    have htr : jsTruthy data.audio = true := by
      rw [ha]; simp [jsTruthy, hne]
    have hstruct : (sendTextMessage text (Except.ok data) s).seq =
        maybePlayNextAudio { s.seq with queue := s.seq.queue ++ [a] } := by
      simp [sendTextMessage, htext, sendTextResume, sendTextSyncCore, ha,
        jsTruthy, hne]
    refine ⟨?_, hstruct, ?_⟩
    · simp [sendTextMessage, htext, sendTextResume, htr, sendTextSyncCore]
    · intro hqs
      have hall : ∀ f ∈ s.seq.queue ++ [a], f ≠ "" := by
        intro f hf
        rcases List.mem_append.mp hf with h | h
        · exact hqs f h
        · have : f = a := by simpa using h
          exact this ▸ hne
      have hacc := maybePlayNextAudio_played_queue
        { s.seq with queue := s.seq.queue ++ [a] } hall
      rw [hstruct]
      simpa [List.append_assoc] using hacc
  · constructor
    · simp [sendTextMessage, htext, sendTextResume, sendTextSyncCore]
    · simp [sendTextMessage, htext, sendTextResume, sendTextSyncCore]

/-- Witness for C5 at text "hello" with a successful response carrying
audio "QUJD" and with a failed call, from the idle session (whose queue
is empty, discharging the truthy-queue hypothesis). -/
theorem sendTextMessage_contract_witness :
    (sendTextMessage "hello" (Except.ok ⟨some "QUJD", some "mp3"⟩)
        sessionInit).messages =
      sessionInit.messages ++ [⟨Role.user, "hello"⟩, ⟨Role.agent, "[audio]"⟩]
    ∧ (sendTextMessage "hello" (Except.error ()) sessionInit).messages =
      sessionInit.messages ++ [⟨Role.user, "hello"⟩,
        ⟨Role.agent, "Sorry, I could not process that."⟩]
    ∧ (sendTextMessage "hello" (Except.ok ⟨some "QUJD", some "mp3"⟩)
          sessionInit).seq.played ++
        (sendTextMessage "hello" (Except.ok ⟨some "QUJD", some "mp3"⟩)
          sessionInit).seq.queue =
      sessionInit.seq.played ++ sessionInit.seq.queue ++ ["QUJD"] :=
  ⟨((sendTextMessage_contract sessionInit "hello" ⟨some "QUJD", some "mp3"⟩
      "QUJD" (by decide)).2.2.1 rfl (by decide)).1,
   (sendTextMessage_contract sessionInit "hello" ⟨some "QUJD", some "mp3"⟩
      "QUJD" (by decide)).2.2.2.1,
   ((sendTextMessage_contract sessionInit "hello" ⟨some "QUJD", some "mp3"⟩
      "QUJD" (by decide)).2.2.1 rfl (by decide)).2.2
     (by intro f hf; simp [sessionInit, seqInit] at hf)⟩

/-- C6: the inbound sequence [ping 7, user_transcript "hi", audio A,
agent_response "hello", audio B] processed from the Active session
yields the message log [{user,"hi"}, {agent,"hello"}] in order, sends
exactly one pong carrying event_id 7 and nothing else, the ping step
leaves transcript and audio state untouched, and A plays before B with
never more than one fragment active: after the five frames A is the
only active playback with B queued, and B starts only once A's playback
completes. -/
theorem inbound_scenario_concrete :
    (runFrames 0 sessionActive
        [some (InMsg.ping 7), some (InMsg.userTranscript (some "hi")),
         some (InMsg.audio (some "A")), some (InMsg.agentResponse (some "hello")),
         some (InMsg.audio (some "B"))]).messages =
      [⟨Role.user, "hi"⟩, ⟨Role.agent, "hello"⟩]
    ∧ (runFrames 0 sessionActive
        [some (InMsg.ping 7), some (InMsg.userTranscript (some "hi")),
         some (InMsg.audio (some "A")), some (InMsg.agentResponse (some "hello")),
         some (InMsg.audio (some "B"))]).sent = [(0, OutMsg.pong 7)]
    ∧ (wsOnMessage 0 (some (InMsg.ping 7)) sessionActive).messages =
        sessionActive.messages
    ∧ (wsOnMessage 0 (some (InMsg.ping 7)) sessionActive).seq = sessionActive.seq
    ∧ (runFrames 0 sessionActive
        [some (InMsg.ping 7), some (InMsg.userTranscript (some "hi")),
         some (InMsg.audio (some "A")), some (InMsg.agentResponse (some "hello")),
         some (InMsg.audio (some "B"))]).seq.played = ["A"]
    ∧ (runFrames 0 sessionActive
        [some (InMsg.ping 7), some (InMsg.userTranscript (some "hi")),
         some (InMsg.audio (some "A")), some (InMsg.agentResponse (some "hello")),
         some (InMsg.audio (some "B"))]).seq.active = ["A"]
    ∧ (runFrames 0 sessionActive
        [some (InMsg.ping 7), some (InMsg.userTranscript (some "hi")),
         some (InMsg.audio (some "A")), some (InMsg.agentResponse (some "hello")),
         some (InMsg.audio (some "B"))]).seq.queue = ["B"]
    ∧ (finishPlayback (runFrames 0 sessionActive
        [some (InMsg.ping 7), some (InMsg.userTranscript (some "hi")),
         some (InMsg.audio (some "A")), some (InMsg.agentResponse (some "hello")),
         some (InMsg.audio (some "B"))]).seq).played = ["A", "B"]
    ∧ (finishPlayback (runFrames 0 sessionActive
        [some (InMsg.ping 7), some (InMsg.userTranscript (some "hi")),
         some (InMsg.audio (some "A")), some (InMsg.agentResponse (some "hello")),
         some (InMsg.audio (some "B"))]).seq).active = ["B"] :=
  ⟨rfl, rfl, rfl, rfl, rfl, rfl, rfl, rfl, rfl⟩

/-- C7: a captured microphone frame is dropped — session state entirely
unchanged, nothing queued — whenever the socket reference is absent or
the referenced socket is not `OPEN`; in particular every frame delivered
after `stopConversation` or after the socket's close handler ran is
dropped; and a frame that does change the state can only have been sent
as a `user_audio_chunk` on a present, open socket. -/
theorem audio_frames_dropped_unless_open :
    (∀ s d, s.wsRef = none → onAudioChunked d s = s)
    ∧ (∀ s d i, s.wsRef = some i →
        sockState s i ≠ some ReadyState.opened → onAudioChunked d s = s)
    ∧ (∀ s d, onAudioChunked d (stopConversation s) = stopConversation s)
    ∧ (∀ s d i, (sockState s i = some ReadyState.connecting ∨
          sockState s i = some ReadyState.opened) →
        onAudioChunked d (wsOnClose i s) = wsOnClose i s)
    ∧ (∀ s d, onAudioChunked d s ≠ s →
        ∃ i, s.wsRef = some i ∧ sockState s i = some ReadyState.opened ∧
          (onAudioChunked d s).sent =
            s.sent ++ [(i, OutMsg.userAudioChunk d)]) := by
  refine ⟨?_, ?_, ?_, ?_, ?_⟩
  · intro s d h
    simp [onAudioChunked, h]
  · intro s d i h hst
    simp [onAudioChunked, h, hst]
  · intro s d
    rfl
  · intro s d i h
    have hguard : (sockState s i = some ReadyState.connecting ∨
        sockState s i = some ReadyState.opened) := h
    simp only [wsOnClose, if_pos hguard]
    rfl
  · intro s d h
    cases href : s.wsRef with
    | none => exact absurd (by simp [onAudioChunked, href]) h
    | some i =>
        by_cases hst : sockState s i = some ReadyState.opened
        · exact ⟨i, rfl, hst, by simp [onAudioChunked, href, hst]⟩
        · exact absurd (by simp [onAudioChunked, href, hst]) h

/-- Witness for C7: after stopping the active session a captured frame
is dropped, and a frame on the idle session (no socket) is dropped. -/
theorem audio_frames_dropped_unless_open_witness :
    onAudioChunked "abc" (stopConversation sessionActive) =
      stopConversation sessionActive
    ∧ onAudioChunked "abc" sessionInit = sessionInit :=
  ⟨audio_frames_dropped_unless_open.2.2.1 sessionActive "abc",
   audio_frames_dropped_unless_open.1 sessionInit "abc" rfl⟩

/-- C8: `stopConversation` is idempotent — a second call produces
exactly the same end state as the first; a call on an already-idle
session is a no-op; and after any call the session is idle (socket
reference cleared, not connected, not recording, microphone released).
The function is total, so no error is raised. -/
theorem stop_idempotent (s : Session) :
    stopConversation (stopConversation s) = stopConversation s
    ∧ (IsIdle s → stopConversation s = s)
    ∧ IsIdle (stopConversation s) := by
  refine ⟨rfl, ?_, rfl, rfl, rfl, rfl⟩
  rintro ⟨h1, h2, h3, h4⟩
  cases s
  simp_all [stopConversation]

/-- Witness for C8: stopping the idle session twice equals stopping it
once, and stopping it once is a no-op. -/
theorem stop_idempotent_witness :
    stopConversation (stopConversation sessionInit) =
      stopConversation sessionInit
    ∧ stopConversation sessionInit = sessionInit :=
  ⟨(stop_idempotent sessionInit).1,
   (stop_idempotent sessionInit).2.1 ⟨rfl, rfl, rfl, rfl⟩⟩

/-- C9: a successful TTS response whose `audio` field is absent or empty
makes `sendTextMessage` return right after its synchronous prefix: the
user message is appended, but no agent message of any kind is appended
and nothing is enqueued. -/
theorem tts_success_without_audio_silent (s : Session) (text : String)
    (data : TtsResp) (htext : text ≠ "")
    (haudio : jsTruthy data.audio = false) :
    sendTextMessage text (Except.ok data) s = sendTextSyncCore text s
    ∧ (sendTextMessage text (Except.ok data) s).messages =
        s.messages ++ [⟨Role.user, text⟩]
    ∧ (sendTextMessage text (Except.ok data) s).seq = s.seq := by
  have h : sendTextMessage text (Except.ok data) s = sendTextSyncCore text s := by
    simp [sendTextMessage, htext, sendTextResume, haudio]
  exact ⟨h, by rw [h]; rfl, by rw [h]; rfl⟩

/-- Witness for C9: a 2xx response with no `audio` field appends only the
user message and leaves the sequencer untouched. -/
theorem tts_success_without_audio_silent_witness :
    (sendTextMessage "hello" (Except.ok ⟨none, some "mp3"⟩)
        sessionInit).messages =
      sessionInit.messages ++ [⟨Role.user, "hello"⟩]
    ∧ (sendTextMessage "hello" (Except.ok ⟨none, some "mp3"⟩)
        sessionInit).seq = sessionInit.seq :=
  ⟨(tts_success_without_audio_silent sessionInit "hello" ⟨none, some "mp3"⟩
      (by decide) rfl).2.1,
   (tts_success_without_audio_silent sessionInit "hello" ⟨none, some "mp3"⟩
      (by decide) rfl).2.2⟩

/-- C10: `sendTextMessage` with the empty string (the only falsy string)
returns before any effect, whatever the TTS outcome would have been: the
state is unchanged — in particular no message is appended, no `/api/tts`
request is issued, and the queue and playing flag keep their values. -/
theorem sendTextMessage_empty_noop (s : Session) (r : Except Unit TtsResp) :
    sendTextMessage "" r s = s
    ∧ (sendTextMessage "" r s).messages = s.messages
    ∧ (sendTextMessage "" r s).ttsRequests = s.ttsRequests
    ∧ (sendTextMessage "" r s).seq = s.seq := by
  have h : sendTextMessage "" r s = s := by simp [sendTextMessage]
  exact ⟨h, by rw [h], by rw [h], by rw [h]⟩

end FlorisAgent
